import Mathlib

/-!
Verification of the `ros2-teleop` binary (src/ROS2/zenoh-rust-teleop/src/bin/ros2-teleop.rs).

The program is a keyboard teleoperation bridge: a background reader task turns
terminal key presses into events on a bounded channel, and the main select loop
multiplexes those key events with log samples arriving from a zenoh subscriber,
publishing velocity commands (`Twist`) and rendering log lines.

The shallow embedding below models, directly from the source:
  * the crossterm event types consumed by the reader (`KeyCode`, `KeyModifiers`,
    `KeyEvent`, `Event`);
  * the reader loop of `main` (lines 152-185) as a step function on read
    results plus a fold over an input list;
  * the `Twist`/`Vector3` records built by `pub_twist` (lines 108-126), with
    the `f64` fields modelled by exact rationals (the only arithmetic the
    program performs on them is multiplication by `1.0`/`-1.0` and the constant
    `0.0`, which IEEE-754 doubles compute exactly, so the rational model is
    faithful for these operations);
  * the `Log` record and its `Display` instance (lines 81-106);
  * `parse_args` (lines 238-267) and the destructuring of its result in `main`
    (line 133), including the order in which the two scale factors travel;
  * the `tokio::select!` multiplexer loop of `main` (lines 190-232) as a step
    function over a trace of select outcomes, with the external CDR decoder
    kept abstract as a `List Nat → Option Log` parameter (the codec is an
    external library, not code of this repository);
  * the post-loop shutdown of `main` (lines 233-236): the trailing stop
    publish and the raw-mode restoration.
-/

namespace Teleop

/-- Crossterm key codes, as matched by the program (`KeyCode` in the source).
Only the constructors the program inspects are named; the remaining crossterm
codes are carried faithfully since the reader forwards them unchanged. -/
inductive KeyCode where
  | Backspace
  | Enter
  | Left
  | Right
  | Up
  | Down
  | Home
  | End
  | PageUp
  | PageDown
  | Tab
  | BackTab
  | Delete
  | Insert
  | F (n : Nat)
  | Char (c : Char)
  | Null
  | Esc
  deriving DecidableEq, Repr

/-- Crossterm key modifiers bitflags; the program only ever tests
`modifiers.contains(KeyModifiers::CONTROL)`. -/
structure KeyModifiers where
  shift : Bool
  control : Bool
  alt : Bool
  deriving DecidableEq, Repr

/-- Crossterm `KeyEvent`: a key code plus modifiers. -/
structure KeyEvent where
  code : KeyCode
  modifiers : KeyModifiers
  deriving DecidableEq, Repr

/-- Crossterm `Event`: key press, mouse event or terminal resize. The program
never inspects the payload of mouse or resize events. -/
inductive Event where
  | Key (k : KeyEvent)
  | Mouse
  | Resize (w h : Nat)
  deriving DecidableEq, Repr

/-- Result of one `crossterm::event::read()` call: an event, or a read error
(the error text is all the program uses, for its warning log). -/
inductive ReadResult where
  | ok (e : Event)
  | err (msg : String)
  deriving DecidableEq, Repr

/-- What the reader loop body does with one read result. -/
inductive ReaderAction where
  | stop
  | drop
  | relay (e : Event)
  deriving DecidableEq, Repr

/-- Capacity of the bounded relay channel, from
`mpsc::channel::<Event>(10)` at line 151 of the source. -/
def relayChannelCapacity : Nat := 10

/-- One iteration of the reader loop (source lines 153-184): `Esc` and
`Char('q')` break, `Char('c')` breaks when CONTROL is held and is otherwise
ignored, every other event is sent on the relay channel, and a read error
breaks. -/
def readerStep : ReadResult → ReaderAction
  | .ok (.Key ⟨.Esc, _⟩) => .stop
  | .ok (.Key ⟨.Char 'q', _⟩) => .stop
  | .ok (.Key ⟨.Char 'c', m⟩) => if m.control then .stop else .drop
  | .ok e => .relay e
  | .err _ => .stop

/-- The reader loop over a list of successive read results: the list of events
it sends on the relay channel before terminating (sends are modelled as
succeeding, i.e. the receiver is still alive). -/
def readerRun : List ReadResult → List Event
  | [] => []
  | r :: rs =>
    match readerStep r with
    | .stop => []
    | .drop => readerRun rs
    | .relay e => e :: readerRun rs

/-- Quit signals per the source: `Esc`, `'q'`, or `'c'` with CONTROL. -/
def isQuitSignal : ReadResult → Bool
  | .ok (.Key ⟨.Esc, _⟩) => true
  | .ok (.Key ⟨.Char 'q', _⟩) => true
  | .ok (.Key ⟨.Char 'c', m⟩) => m.control
  | _ => false

/-- A plain `'c'` key press (no CONTROL), the one event the reader silently
swallows without either quitting or relaying. -/
def isPlainC : Event → Bool
  | .Key ⟨.Char 'c', m⟩ => !m.control
  | _ => false

/-- Three-component vector of the ROS2 `Twist` message; `f64` fields modelled
as exact rationals. -/
structure Vector3 where
  x : ℚ
  y : ℚ
  z : ℚ
  deriving DecidableEq, Repr

/-- The ROS2 velocity command record built by `pub_twist`. -/
structure Twist where
  linear : Vector3
  angular : Vector3
  deriving DecidableEq, Repr

/-- The `Twist` value constructed by `pub_twist` (source lines 109-120):
`linear = (linear, 0, 0)`, `angular = (0, 0, angular)`. -/
def mkTwist (linear angular : ℚ) : Twist :=
  { linear := { x := linear, y := 0, z := 0 }
    angular := { x := 0, y := 0, z := angular } }

/-- ROS2 timestamp of a log record: `sec : i32`, `nanosec : u32`, modelled as
`Int` and `Nat`. -/
structure Time where
  sec : Int
  nanosec : Nat
  deriving DecidableEq, Repr

/-- The ROS2 `Log` record deserialized from the rosout topic (source lines
87-96). -/
structure Log where
  stamp : Time
  level : Nat
  name : String
  msg : String
  file : String
  function : String
  line : Nat
  deriving DecidableEq, Repr

/-- The `Display` implementation for `Log` (source lines 98-106). -/
def logDisplay (l : Log) : String :=
  "[" ++ toString l.stamp.sec ++ "." ++ toString l.stamp.nanosec ++ "] ["
    ++ l.name ++ "]: " ++ l.msg

/-- The CLI arguments relevant to the claims. `--linear-scale` has short flag
`-x`, `--angular-scale` has short flag `-a`; both default to `2.0`. The
transport configuration fields are omitted (they only feed the opaque zenoh
config). -/
structure Cli where
  cmd_vel : String
  rosout : String
  angular_scale : ℚ
  linear_scale : ℚ
  deriving DecidableEq, Repr

/-- Return value of `parse_args` (source line 266), minus the opaque zenoh
config: the tuple is `(cmd_vel, rosout, angular_scale, linear_scale)` — the
angular scale comes FOURTH and the linear scale FIFTH in the source tuple. -/
def parse_args (cli : Cli) : String × String × ℚ × ℚ :=
  (cli.cmd_vel, cli.rosout, cli.angular_scale, cli.linear_scale)

/-- The scale bindings made by `main` at line 133: it destructures the result
of `parse_args` as `(config, cmd_vel, rosout, linear_scale, angular_scale)`,
so the name `linear_scale` in `main` receives the fourth component (which
`parse_args` filled with `cli.angular_scale`) and vice versa. The pair is
`(linear_scale, angular_scale)` as bound in `main`. -/
def mainScales (cli : Cli) : ℚ × ℚ :=
  let p := parse_args cli
  (p.2.2.1, p.2.2.2)

/-- The key-event handler of the multiplexer loop (source lines 207-229),
restricted to the publishing arms: the `Twist` published for one received
event, `none` when the event matches `Some(_) => ()`. The scales are the
`linear_scale` and `angular_scale` bindings of `main`. -/
def keyCmd (linear_scale angular_scale : ℚ) : Event → Option Twist
  | .Key ⟨.Up, _⟩ => some (mkTwist (1 * linear_scale) 0)
  | .Key ⟨.Down, _⟩ => some (mkTwist (-1 * linear_scale) 0)
  | .Key ⟨.Left, _⟩ => some (mkTwist 0 (1 * angular_scale))
  | .Key ⟨.Right, _⟩ => some (mkTwist 0 (-1 * angular_scale))
  | .Key ⟨.Char ' ', _⟩ => some (mkTwist 0 0)
  | _ => none

/-- Terminal output actions performed by the render arm of the loop. -/
inductive TermAction where
  | print (s : String)
  | moveToColumn (n : Nat)
  deriving DecidableEq, Repr

/-- One resolved `tokio::select!` outcome: either `subscriber.next()` returned
(`bus`, with `none` for end of stream) or `key_receiver.recv()` returned
(`key`, with `none` for a closed channel). A bus sample carries its opaque
payload bytes. -/
inductive SelectEvent where
  | bus (s : Option (List Nat))
  | key (e : Option Event)
  deriving DecidableEq, Repr

/-- How one pass of the multiplexer loop ends, and the final outcome of a
trace: still `running` (trace exhausted with the loop alive), `exited` (the
`None => break` arm ran), or `panicked` (`sample.unwrap()` on `None`). -/
inductive Outcome where
  | running
  | exited
  | panicked
  deriving DecidableEq, Repr

/-- Accumulated observable behaviour of the multiplexer loop. -/
structure MuxResult where
  published : List Twist
  rendered : List String
  actions : List TermAction
  decodeWarnings : Nat
  outcome : Outcome
  deriving DecidableEq, Repr

/-- The multiplexer loop of `main` (source lines 190-232) over a trace of
select outcomes, parameterized by the external CDR decoder `d` (the program
calls `cdr::deserialize::<Log>`, an external library). On a bus sample the
payload is decoded: success renders the log line and moves the cursor to
column zero, failure logs one warning; end of stream panics on
`sample.unwrap()`. On a key event the publishing arms run `pub_twist`; an
unrecognized event is ignored; a closed channel breaks the loop. -/
def muxRun (linear_scale angular_scale : ℚ) (d : List Nat → Option Log) :
    List SelectEvent → MuxResult
  | [] => ⟨[], [], [], 0, .running⟩
  | .bus none :: _ => ⟨[], [], [], 0, .panicked⟩
  | .bus (some p) :: rest =>
    match d p with
    | some l =>
      let r := muxRun linear_scale angular_scale d rest
      { r with
        rendered := logDisplay l :: r.rendered
        actions := .print (logDisplay l) :: .moveToColumn 0 :: r.actions }
    | none =>
      let r := muxRun linear_scale angular_scale d rest
      { r with decodeWarnings := r.decodeWarnings + 1 }
  | .key (some ev) :: rest =>
    match keyCmd linear_scale angular_scale ev with
    | some t =>
      let r := muxRun linear_scale angular_scale d rest
      { r with published := t :: r.published }
    | none => muxRun linear_scale angular_scale d rest
  | .key none :: _ => ⟨[], [], [], 0, .exited⟩

/-- Observable result of running `main` from just after setup: all published
twists (loop publishes plus, on clean exit, the trailing stop command of line
234), all rendered log lines, whether raw terminal mode is still enabled when
control ends, and how the run ended. -/
structure MainResult where
  published : List Twist
  rendered : List String
  rawMode : Bool
  outcome : Outcome
  deriving DecidableEq, Repr

/-- The body of `main` after session setup (source lines 149-236): raw mode is
enabled, the loop runs over the trace, and only when the loop breaks cleanly
(relay channel closed) does the program publish the final stop command and
call `disable_raw_mode`; a panic propagates with raw mode still enabled. -/
def mainRun (cli : Cli) (d : List Nat → Option Log)
    (trace : List SelectEvent) : MainResult :=
  let r := muxRun (mainScales cli).1 (mainScales cli).2 d trace
  match r.outcome with
  | .exited =>
    { published := r.published ++ [mkTwist 0 0]
      rendered := r.rendered
      rawMode := false
      outcome := .exited }
  | o =>
    { published := r.published
      rendered := r.rendered
      rawMode := true
      outcome := o }

/-- The select trace seen by the multiplexer when no bus message ever arrives
and the keyboard input is `inputs`: each event the reader relays arrives on
the channel in order, followed by the channel-closed signal once the reader
has terminated and the sender is dropped. -/
def keyTrace (inputs : List ReadResult) : List SelectEvent :=
  (readerRun inputs).map (fun e => SelectEvent.key (some e))
    ++ [SelectEvent.key none]

/-- Modifier set with no modifier held. -/
def noMods : KeyModifiers := ⟨false, false, false⟩

/-- Cli for the scenario of the spec's example: `--linear-scale 2.0`
(so `cli.linear_scale = 2`) and `--angular-scale 3.0`
(so `cli.angular_scale = 3`), topics left at their defaults. -/
def c1Cli : Cli := ⟨"/rt/turtle1/cmd_vel", "/rt/rosout", 3, 2⟩

/-- Keyboard input of the spec's example scenario: Up, Left, Space, Esc. -/
def c1Inputs : List ReadResult :=
  [.ok (.Key ⟨.Up, noMods⟩), .ok (.Key ⟨.Left, noMods⟩),
   .ok (.Key ⟨.Char ' ', noMods⟩), .ok (.Key ⟨.Esc, noMods⟩)]

/-- A key press the program does not recognize: plain `'z'`. -/
def zKey : Event := .Key ⟨.Char 'z', noMods⟩

/-- The log record of the spec's rendering example. -/
def navLog : Log := ⟨⟨10, 500⟩, 2, "nav", "starting", "", "", 0⟩

/-- A quit signal makes the reader loop break. -/
theorem isQuitSignal_stop (q : ReadResult) (hq : isQuitSignal q = true) :
    readerStep q = ReaderAction.stop := by
  unfold isQuitSignal at hq
  split at hq
  · rfl
  · rfl
  · simp [readerStep, hq]
  · exact absurd hq (by simp)

/-- A non-quit event other than a plain `'c'` is relayed by the reader. -/
theorem readerStep_relay_of (ev : Event) (hq : isQuitSignal (.ok ev) = false)
    (hc : isPlainC ev = false) : readerStep (.ok ev) = ReaderAction.relay ev := by
  cases ev with
  | Mouse => rfl
  | Resize w h => rfl
  | Key k =>
    obtain ⟨code, m⟩ := k
    cases code
    case Esc => simp [isQuitSignal] at hq
    case Char c =>
      by_cases h1 : c = 'q'
      · subst h1; simp [isQuitSignal] at hq
      · by_cases h2 : c = 'c'
        · subst h2
          simp only [isQuitSignal] at hq
          simp [isPlainC, hq] at hc
        · unfold readerStep
          split <;> simp_all
    all_goals rfl

/-- Once the reader hits a stopping read result, later inputs are never
relayed. -/
theorem readerRun_quit (pre : List ReadResult) (q : ReadResult)
    (post : List ReadResult)
    (hpre : ∀ r ∈ pre, readerStep r ≠ ReaderAction.stop)
    (hq : readerStep q = ReaderAction.stop) :
    readerRun (pre ++ q :: post) = readerRun pre := by
  induction pre with
  | nil => simp [readerRun, hq]
  | cons r rs ih =>
    have hr := hpre r (List.mem_cons_self r rs)
    have ih2 := ih fun x hx => hpre x (List.mem_cons_of_mem r hx)
    simp only [List.cons_append, readerRun]
    cases ha : readerStep r with
    | stop => exact absurd ha hr
    | drop => exact ih2
    | relay e => exact congrArg (List.cons e) ih2

/-- The multiplexer over a pure key trace (each relayed event, then channel
closure): it publishes exactly the commands of the recognized keys, renders
nothing, warns never, and exits cleanly. -/
theorem muxRun_keyOnly (ls a : ℚ) (d : List Nat → Option Log)
    (es : List Event) :
    muxRun ls a d
        (es.map (fun e => SelectEvent.key (some e)) ++ [SelectEvent.key none])
      = ⟨es.filterMap (keyCmd ls a), [], [], 0, Outcome.exited⟩ := by
  induction es with
  | nil => rfl
  | cons e rest ih =>
    simp only [List.map_cons, List.cons_append, List.filterMap_cons, muxRun]
    cases hk : keyCmd ls a e with
    | some t => simp [hk, ih]
    | none => simp [hk, ih]

/-- Shape of `main` after a quit-terminated keyboard session with no bus
traffic: the loop's key publishes, one trailing stop, no renders, raw mode
restored, clean exit. -/
theorem mainRun_keyTrace (cli : Cli) (d : List Nat → Option Log)
    (ins : List ReadResult) :
    mainRun cli d (keyTrace ins) =
      { published := (readerRun ins).filterMap
          (keyCmd (mainScales cli).1 (mainScales cli).2) ++ [mkTwist 0 0]
        rendered := []
        rawMode := false
        outcome := .exited } := by
  unfold mainRun keyTrace
  rw [muxRun_keyOnly]

/-- Every `Twist` returned by the key handler is a `pub_twist` twist. -/
theorem keyCmd_shape (ls a : ℚ) (ev : Event) (t : Twist)
    (h : keyCmd ls a ev = some t) : ∃ u v, t = mkTwist u v := by
  unfold keyCmd at h
  split at h <;>
    first
      | exact Option.noConfusion h
      | (injection h with h; exact ⟨_, _, h.symm⟩)

/-- Every `Twist` the multiplexer loop publishes is a `pub_twist` twist. -/
theorem muxRun_published_shape (ls a : ℚ) (d : List Nat → Option Log) :
    ∀ trace t, t ∈ (muxRun ls a d trace).published → ∃ u v, t = mkTwist u v := by
  intro trace
  induction trace with
  | nil => intro t h; simp [muxRun] at h
  | cons e rest ih =>
    intro t h
    cases e with
    | bus s =>
      cases s with
      | none => simp [muxRun] at h
      | some p =>
        cases hd : d p with
        | some l =>
          simp only [muxRun, hd] at h
          exact ih t h
        | none =>
          simp only [muxRun, hd] at h
          exact ih t h
    | key o =>
      cases o with
      | none => simp [muxRun] at h
      | some ev =>
        cases hk : keyCmd ls a ev with
        | some t0 =>
          simp only [muxRun, hk, List.mem_cons] at h
          rcases h with h | h
          · exact h ▸ keyCmd_shape ls a ev t0 hk
          · exact ih t h
        | none =>
          simp only [muxRun, hk] at h
          exact ih t h

/-- Published commands of `main`: the loop's publishes, plus the trailing
stop exactly when the loop exited cleanly. -/
theorem mainRun_published (cli : Cli) (d : List Nat → Option Log)
    (trace : List SelectEvent) :
    (mainRun cli d trace).published =
      (muxRun (mainScales cli).1 (mainScales cli).2 d trace).published
        ++ (if (muxRun (mainScales cli).1 (mainScales cli).2 d trace).outcome
              = Outcome.exited
            then [mkTwist 0 0] else []) := by
  cases ho : (muxRun (mainScales cli).1 (mainScales cli).2 d trace).outcome <;>
    simp [mainRun, ho]

/-- Every `Twist` `main` ever publishes is a `pub_twist` twist. -/
theorem mainRun_published_shape (cli : Cli) (d : List Nat → Option Log)
    (trace : List SelectEvent) (t : Twist)
    (ht : t ∈ (mainRun cli d trace).published) : ∃ u v, t = mkTwist u v := by
  rw [mainRun_published] at ht
  rcases List.mem_append.1 ht with h | h
  · exact muxRun_published_shape _ _ _ _ _ h
  · split at h
    · rcases List.mem_singleton.1 h with rfl
      exact ⟨0, 0, rfl⟩
    · exact absurd h (List.not_mem_nil t)

/-- A clean exit of the multiplexer only happens on relay-channel closure. -/
theorem muxRun_exited_mem (ls a : ℚ) (d : List Nat → Option Log) :
    ∀ trace, (muxRun ls a d trace).outcome = Outcome.exited →
      SelectEvent.key none ∈ trace := by
  intro trace
  induction trace with
  | nil => intro h; simp [muxRun] at h
  | cons e rest ih =>
    intro h
    cases e with
    | bus s =>
      cases s with
      | none => simp [muxRun] at h
      | some p =>
        cases hd : d p with
        | some l =>
          simp only [muxRun, hd] at h
          exact List.mem_cons_of_mem _ (ih h)
        | none =>
          simp only [muxRun, hd] at h
          exact List.mem_cons_of_mem _ (ih h)
    | key o =>
      cases o with
      | none => exact List.mem_cons_self _ _
      | some ev =>
        cases hk : keyCmd ls a ev with
        | some t0 =>
          simp only [muxRun, hk] at h
          exact List.mem_cons_of_mem _ (ih h)
        | none =>
          simp only [muxRun, hk] at h
          exact List.mem_cons_of_mem _ (ih h)

/-- Evaluation of the key handler on Up (`1.0 * linear_scale`). -/
theorem keyCmd_up (ls a : ℚ) (m : KeyModifiers) :
    keyCmd ls a (.Key ⟨.Up, m⟩) = some (mkTwist ls 0) := by
  show some (mkTwist (1 * ls) 0) = some (mkTwist ls 0)
  rw [one_mul]

/-- Evaluation of the key handler on Down (`-1.0 * linear_scale`). -/
theorem keyCmd_down (ls a : ℚ) (m : KeyModifiers) :
    keyCmd ls a (.Key ⟨.Down, m⟩) = some (mkTwist (-ls) 0) := by
  show some (mkTwist (-1 * ls) 0) = some (mkTwist (-ls) 0)
  rw [neg_one_mul]

/-- Evaluation of the key handler on Left (`1.0 * angular_scale`). -/
theorem keyCmd_left (ls a : ℚ) (m : KeyModifiers) :
    keyCmd ls a (.Key ⟨.Left, m⟩) = some (mkTwist 0 a) := by
  show some (mkTwist 0 (1 * a)) = some (mkTwist 0 a)
  rw [one_mul]

/-- Evaluation of the key handler on Right (`-1.0 * angular_scale`). -/
theorem keyCmd_right (ls a : ℚ) (m : KeyModifiers) :
    keyCmd ls a (.Key ⟨.Right, m⟩) = some (mkTwist 0 (-a)) := by
  show some (mkTwist 0 (-1 * a)) = some (mkTwist 0 (-a))
  rw [neg_one_mul]

/-- Evaluation of the key handler on Space. -/
theorem keyCmd_space (ls a : ℚ) (m : KeyModifiers) :
    keyCmd ls a (.Key ⟨.Char ' ', m⟩) = some (mkTwist 0 0) := rfl

/-- C1. The spec's example scenario claims that keys `[Up, Left, Space, Esc]`
with `linear_scale = 2.0` and `angular_scale = 3.0` publish
`[linear.x = 2, angular.z = 3, zero, zero]`. The code actually publishes
`[linear.x = 3, angular.z = 2, zero, zero]` (with zero renders), because
`parse_args` returns `(.., angular_scale, linear_scale)` while `main`
destructures the tuple as `(.., linear_scale, angular_scale)`, swapping the
two scale factors. This theorem evaluates the code at the failing input and
shows its output differs from the claimed sequence. -/
theorem C1_code_behavior :
    (mainRun c1Cli (fun _ => none) (keyTrace c1Inputs)).published
        = [mkTwist 3 0, mkTwist 0 2, mkTwist 0 0, mkTwist 0 0]
      ∧ (mainRun c1Cli (fun _ => none) (keyTrace c1Inputs)).rendered = []
      ∧ (mainRun c1Cli (fun _ => none) (keyTrace c1Inputs)).published
        ≠ [mkTwist 2 0, mkTwist 0 3, mkTwist 0 0, mkTwist 0 0] := by
  have h := mainRun_keyTrace c1Cli (fun _ => none) c1Inputs
  have hr : readerRun c1Inputs
      = [Event.Key ⟨.Up, noMods⟩, Event.Key ⟨.Left, noMods⟩,
         Event.Key ⟨.Char ' ', noMods⟩] := rfl
  have hs : mainScales c1Cli = (3, 2) := rfl
  rw [hr, hs] at h
  simp only [List.filterMap_cons, List.filterMap_nil, keyCmd_up, keyCmd_left,
    keyCmd_space, List.nil_append, List.cons_append] at h
  refine ⟨by rw [h], by rw [h], ?_⟩
  rw [h]
  simp only [ne_eq, List.cons.injEq, mkTwist, Twist.mk.injEq, Vector3.mk.injEq]
  norm_num

/-- C2. The claim says `Up` publishes `linear.x = +linear_scale` where
`linear_scale` is the value of the `-x` (long form `--linear-scale`) flag.
In the code, `main`'s
`linear_scale` binding actually receives `cli.angular_scale` (the scales come
back from `parse_args` in the order `(angular, linear)` but are destructured
as `(linear, angular)`), so with `-x 2 -a 3` the `Up` key publishes
`linear.x = 3`, not `+2`. -/
theorem C2_code_behavior :
    (∀ cli : Cli, mainScales cli = (cli.angular_scale, cli.linear_scale))
      ∧ keyCmd (mainScales c1Cli).1 (mainScales c1Cli).2 (.Key ⟨.Up, noMods⟩)
        = some (mkTwist 3 0)
      ∧ mkTwist 3 0 ≠ mkTwist c1Cli.linear_scale 0 := by
  have hs : mainScales c1Cli = (3, 2) := rfl
  refine ⟨fun _ => rfl, ?_, ?_⟩
  · rw [hs, keyCmd_up]
  · intro hc
    have h3 : (3 : ℚ) = c1Cli.linear_scale := congrArg (fun t => t.linear.x) hc
    norm_num [c1Cli] at h3

/-- C3. A quit signal (Esc, 'q' or Ctrl+C) terminates the reader relaying no
further events, and the resulting run exits the multiplexer cleanly on
channel closure, publishing the loop's key commands followed by exactly one
trailing stop command, with raw mode restored. -/
theorem C3_quit_shutdown (cli : Cli) (d : List Nat → Option Log)
    (pre : List ReadResult) (q : ReadResult) (post : List ReadResult)
    (hpre : ∀ r ∈ pre, readerStep r ≠ ReaderAction.stop)
    (hq : isQuitSignal q = true) :
    readerRun (pre ++ q :: post) = readerRun pre
      ∧ mainRun cli d (keyTrace (pre ++ q :: post)) =
        { published := (readerRun pre).filterMap
            (keyCmd (mainScales cli).1 (mainScales cli).2) ++ [mkTwist 0 0]
          rendered := []
          rawMode := false
          outcome := .exited } := by
  have h1 : readerRun (pre ++ q :: post) = readerRun pre :=
    readerRun_quit pre q post hpre (isQuitSignal_stop q hq)
  refine ⟨h1, ?_⟩
  rw [mainRun_keyTrace, h1]

/-- Witness for C3 at the concrete input: empty prefix, Esc, empty suffix. -/
theorem C3_quit_shutdown_witness :
    readerRun ([] ++ ReadResult.ok (Event.Key ⟨KeyCode.Esc, noMods⟩) :: [])
        = readerRun []
      ∧ mainRun c1Cli (fun _ => none)
          (keyTrace ([] ++ ReadResult.ok (Event.Key ⟨KeyCode.Esc, noMods⟩) :: []))
        = { published := (readerRun []).filterMap
              (keyCmd (mainScales c1Cli).1 (mainScales c1Cli).2) ++ [mkTwist 0 0]
            rendered := []
            rawMode := false
            outcome := .exited } :=
  C3_quit_shutdown c1Cli (fun _ => none) []
    (ReadResult.ok (Event.Key ⟨KeyCode.Esc, noMods⟩)) []
    (fun r hr => absurd hr (List.not_mem_nil r)) (by decide)

/-- C4. Every velocity command the program ever publishes has
`linear.y = linear.z = angular.x = angular.y = 0`, and the Space key always
produces the all-zero command. -/
theorem C4_twist_fields (cli : Cli) (d : List Nat → Option Log)
    (trace : List SelectEvent) (t : Twist)
    (ht : t ∈ (mainRun cli d trace).published) :
    (t.linear.y = 0 ∧ t.linear.z = 0 ∧ t.angular.x = 0 ∧ t.angular.y = 0)
      ∧ ∀ (ls a : ℚ) (m : KeyModifiers),
          keyCmd ls a (Event.Key ⟨KeyCode.Char ' ', m⟩)
            = some { linear := ⟨0, 0, 0⟩, angular := ⟨0, 0, 0⟩ } := by
  constructor
  · obtain ⟨u, v, rfl⟩ := mainRun_published_shape cli d trace t ht
    exact ⟨rfl, rfl, rfl, rfl⟩
  · intro ls a m
    rfl

/-- Witness for C4 at a concrete published command and concrete scales. -/
theorem C4_twist_fields_witness :
    ((mkTwist 0 0).linear.y = 0 ∧ (mkTwist 0 0).linear.z = 0
        ∧ (mkTwist 0 0).angular.x = 0 ∧ (mkTwist 0 0).angular.y = 0)
      ∧ keyCmd 1 1 (Event.Key ⟨KeyCode.Char ' ', noMods⟩)
          = some { linear := ⟨0, 0, 0⟩, angular := ⟨0, 0, 0⟩ } :=
  ⟨(C4_twist_fields c1Cli (fun _ => none) [SelectEvent.key none] (mkTwist 0 0)
      (by decide)).1,
   (C4_twist_fields c1Cli (fun _ => none) [SelectEvent.key none] (mkTwist 0 0)
      (by decide)).2 1 1 noMods⟩

/-- C5. A bus payload that fails to decode adds exactly one warning and
changes nothing else: no render, no publish, and the loop goes on to process
the rest of the trace exactly as it would have. -/
theorem C5_decode_failure (ls a : ℚ) (d : List Nat → Option Log)
    (p : List Nat) (rest : List SelectEvent) (hd : d p = none) :
    muxRun ls a d (SelectEvent.bus (some p) :: rest) =
      (let r := muxRun ls a d rest
       { r with decodeWarnings := r.decodeWarnings + 1 }) := by
  simp only [muxRun, hd]

/-- Witness for C5 with an always-failing decoder on an empty payload. -/
theorem C5_decode_failure_witness :
    muxRun 1 1 (fun _ => none) [SelectEvent.bus (some [])] =
      (let r := muxRun 1 1 (fun _ => none) []
       { r with decodeWarnings := r.decodeWarnings + 1 }) :=
  C5_decode_failure 1 1 (fun _ => none) [] [] rfl

/-- C6 counterexample. The claim says raw mode is disabled on every exit
path including error paths. But when the subscriber stream ends, the loop
panics on `sample.unwrap()` and the program unwinds without ever reaching
`disable_raw_mode` (there is no guard), so raw mode is still enabled on that
exit path. -/
theorem C6_counterexample :
    (mainRun c1Cli (fun _ => none) [SelectEvent.bus none]).outcome
        = Outcome.panicked
      ∧ (mainRun c1Cli (fun _ => none) [SelectEvent.bus none]).rawMode
        = true := by
  exact ⟨by decide, by decide⟩

/-- C6 as amended: raw mode is restored exactly on the clean shutdown path,
i.e. when the multiplexer loop exits via relay-channel closure; a panic exit
(e.g. subscriber stream end) leaves raw mode enabled. -/
theorem C6_raw_mode_amended (cli : Cli) (d : List Nat → Option Log)
    (trace : List SelectEvent) :
    (mainRun cli d trace).rawMode = false
      ↔ (mainRun cli d trace).outcome = Outcome.exited := by
  cases ho : (muxRun (mainScales cli).1 (mainScales cli).2 d trace).outcome <;>
    simp [mainRun, ho]

/-- C7 counterexample. The claim says the reader pushes only recognized
directional and space key events and silently drops every other non-quit
event. But a plain `'z'` press is neither directional nor space (the key
handler ignores it) and is not a quit signal, yet the reader relays it onto
the channel instead of dropping it. -/
theorem C7_counterexample :
    readerStep (ReadResult.ok zKey) = ReaderAction.relay zKey
      ∧ isQuitSignal (ReadResult.ok zKey) = false
      ∧ keyCmd 1 1 zKey = none := by
  refine ⟨?_, ?_, ?_⟩ <;> decide

/-- C7 as amended: the reader pushes every non-quit event onto the bounded
relay channel of capacity 10, except a plain (non-Ctrl) `'c'` press, which it
silently drops; unrecognized events are discarded only at the multiplexer. -/
theorem C7_relay_amended (ev : Event)
    (hq : isQuitSignal (ReadResult.ok ev) = false) :
    readerStep (ReadResult.ok ev)
        = (if isPlainC ev then ReaderAction.drop else ReaderAction.relay ev)
      ∧ relayChannelCapacity = 10 := by
  refine ⟨?_, rfl⟩
  cases hc : isPlainC ev with
  | true =>
    rw [if_pos rfl]
    cases ev with
    | Mouse => simp [isPlainC] at hc
    | Resize w h => simp [isPlainC] at hc
    | Key k =>
      obtain ⟨code, m⟩ := k
      cases code
      case Char c =>
        by_cases h2 : c = 'c'
        · subst h2
          simp only [isPlainC, Bool.not_eq_true'] at hc
          simp [readerStep, hc]
        · exfalso
          revert hc
          unfold isPlainC
          split <;> simp_all
      all_goals simp [isPlainC] at hc
  | false =>
    rw [if_neg Bool.false_ne_true]
    exact readerStep_relay_of ev hq hc

/-- Witness for C7's amended statement at the concrete `'z'` press. -/
theorem C7_relay_amended_witness :
    readerStep (ReadResult.ok zKey)
        = (if isPlainC zKey then ReaderAction.drop else ReaderAction.relay zKey)
      ∧ relayChannelCapacity = 10 :=
  C7_relay_amended zKey (by decide)

/-- C8. A successfully decoded log record is rendered as exactly one line
`[<sec>.<nanosec>] [<name>]: <msg>` followed by a cursor move to column zero,
and the record with `sec = 10`, `nanosec = 500`, `name = "nav"`,
`msg = "starting"` renders as the spec's example line. -/
theorem C8_render_format (ls a : ℚ) (d : List Nat → Option Log)
    (p : List Nat) (l : Log) (rest : List SelectEvent) (hd : d p = some l) :
    muxRun ls a d (SelectEvent.bus (some p) :: rest) =
      (let r := muxRun ls a d rest
       { r with
         rendered := logDisplay l :: r.rendered
         actions := TermAction.print (logDisplay l)
           :: TermAction.moveToColumn 0 :: r.actions })
      ∧ logDisplay navLog = "[10.500] [nav]: starting" := by
  refine ⟨?_, by decide⟩
  simp only [muxRun, hd]

/-- Witness for C8 with a decoder that yields the example record. -/
theorem C8_render_format_witness :
    muxRun 1 1 (fun _ => some navLog) [SelectEvent.bus (some [])] =
      (let r := muxRun 1 1 (fun _ => some navLog) []
       { r with
         rendered := logDisplay navLog :: r.rendered
         actions := TermAction.print (logDisplay navLog)
           :: TermAction.moveToColumn 0 :: r.actions })
      ∧ logDisplay navLog = "[10.500] [nav]: starting" :=
  C8_render_format 1 1 (fun _ => some navLog) [] navLog [] rfl

/-- C9. End of the subscriber stream makes the loop panic on
`sample.unwrap()` rather than shut down cleanly, and a clean exit only ever
happens through closure of the key-event relay channel. -/
theorem C9_stream_end_panic (ls a : ℚ) (d : List Nat → Option Log)
    (rest trace : List SelectEvent)
    (hx : (muxRun ls a d trace).outcome = Outcome.exited) :
    (muxRun ls a d (SelectEvent.bus none :: rest)).outcome = Outcome.panicked
      ∧ SelectEvent.key none ∈ trace :=
  ⟨rfl, muxRun_exited_mem ls a d trace hx⟩

/-- Witness for C9 at the one-element channel-closure trace. -/
theorem C9_stream_end_panic_witness :
    (muxRun 1 1 (fun _ => none)
        (SelectEvent.bus none :: [])).outcome = Outcome.panicked
      ∧ SelectEvent.key none ∈ [SelectEvent.key none] :=
  C9_stream_end_panic 1 1 (fun _ => none) [] [SelectEvent.key none] (by decide)

/-- C10. A plain `'c'` press (no Control) is swallowed by the reader: it is
neither relayed nor a quit. Every other non-quit event is relayed verbatim,
and an event the key handler does not recognize is dropped only at the
multiplexer, which continues unchanged. -/
theorem C10_plain_c (m : KeyModifiers) (hm : m.control = false)
    (ev : Event) (hq : isQuitSignal (ReadResult.ok ev) = false)
    (hc : isPlainC ev = false) (ls a : ℚ) (d : List Nat → Option Log)
    (rest : List SelectEvent) (hk : keyCmd ls a ev = none) :
    readerStep (ReadResult.ok (Event.Key ⟨KeyCode.Char 'c', m⟩))
        = ReaderAction.drop
      ∧ readerStep (ReadResult.ok ev) = ReaderAction.relay ev
      ∧ muxRun ls a d (SelectEvent.key (some ev) :: rest)
        = muxRun ls a d rest := by
  refine ⟨?_, readerStep_relay_of ev hq hc, ?_⟩
  · simp [readerStep, hm]
  · simp only [muxRun, hk]

/-- Witness for C10: plain 'c' with no modifiers, and the plain 'z' press. -/
theorem C10_plain_c_witness :
    readerStep (ReadResult.ok (Event.Key ⟨KeyCode.Char 'c', noMods⟩))
        = ReaderAction.drop
      ∧ readerStep (ReadResult.ok zKey) = ReaderAction.relay zKey
      ∧ muxRun 1 1 (fun _ => none) (SelectEvent.key (some zKey) :: [])
        = muxRun 1 1 (fun _ => none) [] :=
  C10_plain_c noMods rfl zKey (by decide) (by decide) 1 1 (fun _ => none) []
    (by decide)

end Teleop
